import Mathlib

/-
Shallow embedding of the idle-transaction engine of
packages/tracing/src/idletransaction.ts (given as src/unnamed/part_001),
together with the small amount of surrounding machinery it relies on
(the base span recorder and the underlying finish path live in
packages/tracing/src/transaction.ts / span.ts, which are not part of the
provided sources; those are modelled from the specification and marked
as such).

Timestamps are rationals (seconds, as produced by timestampWithMs);
timeouts are rationals in milliseconds, mirroring the source's
`end = timestampWithMs() + timeout / 1000`.

The JS `activities: Record<string, boolean>` (whose values are always
`true`) is modelled as its ordered key list: a duplicate-free list of
span identifiers in insertion order, which is exactly what
`Object.keys(this.activities)` observes.  Assigning an existing key
leaves the record unchanged; `delete` removes the key.
-/

namespace IdleTx

/-- Span status enumeration (spanstatus.ts); only the members the engine
uses are needed. -/
inductive SpanStatus where
  | Ok
  | Cancelled
  | DeadlineExceeded
deriving DecidableEq, Repr

/-- A span: identifier, start timestamp, optional end timestamp (none =
still open) and optional status, as in span.ts / the spec data model. -/
structure Span where
  spanId : String
  startTimestamp : ℚ
  endTimestamp : Option ℚ := none
  status : Option SpanStatus := none
deriving DecidableEq, Repr

/-- The base span recorder: a bound and an ordered sequence of spans. -/
structure SpanRecorder where
  maxlen : ℕ
  spans : List Span
deriving DecidableEq, Repr

/-- Modelled from the spec: the base recorder's `add` (transaction.ts is
not among the provided sources).  "`add(span)` appends a span, evicting
the oldest if the bound is exceeded." -/
def SpanRecorder.baseAdd (r : SpanRecorder) (sp : Span) : SpanRecorder :=
  let spans1 := r.spans ++ [sp]
  { r with spans := if r.maxlen < spans1.length then spans1.tail else spans1 }

/-- State of one IdleTransaction: the fields of the class in
idletransaction.ts, plus the pending timers (heartbeat, and the delayed
idle finalizes scheduled by `_popActivity`) and observation counters for
the pre-finish callback and the underlying finish path. -/
structure TxState where
  rootId : String
  idleTimeout : ℚ
  activities : List String
  prevHeartbeat : Option String
  heartbeatCounter : ℕ
  heartbeatTimer : Option ℚ
  idleTimers : List (ℚ × ℚ)
  spanRecorder : Option SpanRecorder
  finishCallbackSet : Bool
  callbackRuns : ℕ
  status : Option SpanStatus
  tags : List (String × String)
  endTimestamp : Option ℚ
deriving DecidableEq, Repr

/-- `keys.reduce((prev, current) => prev + current)` on the activity key
list, yielding the empty string for an empty list (line 82 of the
source): separator-free concatenation of the identifiers. -/
def heartbeatString (keys : List String) : String :=
  keys.foldl (fun p c => p ++ c) ""

/-- setTag on the transaction's tag map. -/
def setTag (k v : String) (tags : List (String × String)) : List (String × String) :=
  tags.filter (fun p => decide (p.1 ≠ k)) ++ [(k, v)]

/-- Lookup of a tag value. -/
def tagOf (k : String) (tags : List (String × String)) : Option String :=
  (tags.find? (fun p => p.1 == k)).map (fun p => p.2)

/-- Modelled from the spec: the underlying `Transaction.finish` /
`Span.finish` path (transaction.ts / span.ts, not among the provided
sources).  It is idempotent — a transaction that already has an end
timestamp is not finished again — and otherwise records the given end
timestamp, or the current time when none is given, transitioning the
transaction to Finished. -/
def txFinish (now : ℚ) (t : Option ℚ) (s : TxState) : TxState :=
  if s.endTimestamp.isSome then s
  else { s with endTimestamp := some (t.getD now) }

/-- The span filter run by `_finishIdleTransaction` (lines 124-145): the
root span is kept untouched; any other span that is still open is closed
at `endTs` with status Cancelled; a span is kept exactly when its start
timestamp is before `endTs`. -/
def filterSpans (rootId : String) (endTs : ℚ) (spans : List Span) : List Span :=
  spans.filterMap fun span =>
    if span.spanId = rootId then some span
    else
      let span1 :=
        if span.endTimestamp = none then
          { span with endTimestamp := some endTs, status := some SpanStatus.Cancelled }
        else span
      if span1.startTimestamp < endTs then some span1 else none

/-- `_finishIdleTransaction(endTimestamp)` (lines 118-152): with a
recorder attached, run the pre-finish callback if registered, prune the
recorder with `filterSpans`, then call the underlying finish path with
no argument (`this.finish()`, line 148) at the current wall time `now`;
with no recorder attached, only log. -/
def finishIdleTransaction (now endTimestamp : ℚ) (s : TxState) : TxState :=
  match s.spanRecorder with
  | some rec =>
    let s1 := if s.finishCallbackSet then { s with callbackRuns := s.callbackRuns + 1 } else s
    let s2 :=
      { s1 with spanRecorder := some { rec with spans := filterSpans s.rootId endTimestamp rec.spans } }
    txFinish now none s2
  | none => s

/-- `_pushActivity(spanId)` (lines 158-160): insert the identifier into
the activity record (assigning an existing key leaves it unchanged). -/
def pushActivity (spanId : String) (s : TxState) : TxState :=
  if spanId ∈ s.activities then s
  else { s with activities := s.activities ++ [spanId] }

/-- `_popActivity(spanId)` (lines 166-182): delete the key if present;
then, whenever the activity record is empty, schedule a delayed finalize
after `idleTimeout` ms carrying the captured end timestamp
`now + idleTimeout / 1000`. -/
def popActivity (now : ℚ) (spanId : String) (s : TxState) : TxState :=
  let s1 :=
    if spanId ∈ s.activities then
      { s with activities := s.activities.filter (fun x => decide (x ≠ spanId)) }
    else s
  if s1.activities.length = 0 then
    { s1 with idleTimers := s1.idleTimers ++ [(s.idleTimeout, now + s.idleTimeout / 1000)] }
  else s1

/-- `_pingHeartbeat` (lines 109-113): arm the heartbeat for 5000 ms. -/
def pingHeartbeat (s : TxState) : TxState :=
  { s with heartbeatTimer := some 5000 }

/-- `_beat` (lines 79-104): clear the heartbeat timer, compute the
activity signature, increment the miss counter when the signature is
unchanged and reset it to 1 otherwise, store the signature; at 3 or more
misses set status DeadlineExceeded, tag heartbeat=failed and finalize
with the current time, otherwise re-arm the heartbeat. -/
def beat (now : ℚ) (s : TxState) : TxState :=
  let s0 := { s with heartbeatTimer := none }
  let hbs := heartbeatString s.activities
  let counter := if some hbs = s.prevHeartbeat then s.heartbeatCounter + 1 else 1
  let s1 := { s0 with prevHeartbeat := some hbs, heartbeatCounter := counter }
  if 3 ≤ counter then
    finishIdleTransaction now now
      { s1 with status := some SpanStatus.DeadlineExceeded, tags := setTag "heartbeat" "failed" s1.tags }
  else
    pingHeartbeat s1

/-- Firing one of the delayed idle-finalize timers scheduled by
`_popActivity` at wall time `now`: the callback closes over the captured
end timestamp (the timer's payload) and calls
`_finishIdleTransaction(end)` (lines 178-180). -/
def fireIdleTimer (now : ℚ) (timer : ℚ × ℚ) (s : TxState) : TxState :=
  finishIdleTransaction now timer.2 s

/-- `beforeFinish(callback)` (lines 187-189): register the pre-finish
callback. -/
def beforeFinish (s : TxState) : TxState :=
  { s with finishCallbackSet := true }

/-- The spans currently held by the recorder (empty when detached). -/
def spansOf (s : TxState) : List Span :=
  match s.spanRecorder with
  | some r => r.spans
  | none => []

/-- `IdleTransactionSpanRecorder.add` (lines 26-40) combined with the
push callback installed by `initSpanRecorder` (lines 196-200): delegate
to the base `add`, then push the span's identifier as an activity unless
it is the transaction's own root identifier.  (The wrapped finish hook
installed here is modelled by `finishSpan` below.) -/
def recorderAdd (sp : Span) (s : TxState) : TxState :=
  match s.spanRecorder with
  | none => s
  | some rec =>
    let s1 := { s with spanRecorder := some (rec.baseAdd sp) }
    if sp.spanId = s.rootId then s1 else pushActivity sp.spanId s1

/-- The wrapped `span.finish` installed by
`IdleTransactionSpanRecorder.add` (lines 28-34) together with the pop
callback of `initSpanRecorder` (lines 201-205): run the original finish
(modelled from the spec: record the given end timestamp, or the current
time when none is given, on the span), then pop the identifier as an
activity unless it is the transaction's own root identifier. -/
def finishSpan (now : ℚ) (id : String) (t : Option ℚ) (s : TxState) : TxState :=
  let upd : Span → Span := fun sp =>
    if sp.spanId = id then { sp with endTimestamp := some (t.getD now) } else sp
  let s1 :=
    match s.spanRecorder with
    | none => s
    | some rec => { s with spanRecorder := some { rec with spans := rec.spans.map upd } }
  if id = s.rootId then s1 else popActivity now id s1

/-- One external child-span event routed through the activity-tracking
recorder: a span start (recorded via `IdleTransactionSpanRecorder.add`)
or a span finish (via the wrapped finish hook). -/
inductive Event where
  | start (id : String) (ts : ℚ)
  | fin (id : String) (ts : ℚ)
deriving DecidableEq, Repr

/-- Apply one child-span event to the transaction state. -/
def applyEvent (s : TxState) (e : Event) : TxState :=
  match e with
  | Event.start id ts => recorderAdd { spanId := id, startTimestamp := ts } s
  | Event.fin id ts => finishSpan ts id none s

/-- Run a sequence of child-span events. -/
def runEvents (s : TxState) (tr : List Event) : TxState :=
  tr.foldl applyEvent s

/-- Identifiers of the spans started in a trace, in order. -/
def startsOf : List Event → List String
  | [] => []
  | Event.start id _ :: tl => id :: startsOf tl
  | Event.fin _ _ :: tl => startsOf tl

/-- Identifiers of the spans finished in a trace, in order. -/
def finishesOf : List Event → List String
  | [] => []
  | Event.start _ _ :: tl => finishesOf tl
  | Event.fin id _ :: tl => id :: finishesOf tl

/-- Well-formed traces: every span starts at most once, finishes at most
once, and finishes only after it has started (section 5 of the spec:
push/pop for a given span are strictly ordered). -/
inductive WF : List Event → Prop where
  | nil : WF []
  | start {tr : List Event} {id : String} {ts : ℚ} :
      WF tr → id ∉ startsOf tr → WF (tr ++ [Event.start id ts])
  | fin {tr : List Event} {id : String} {ts : ℚ} :
      WF tr → id ∈ startsOf tr → id ∉ finishesOf tr → WF (tr ++ [Event.fin id ts])

/-- The identifiers that should currently be counted as activities after
a trace: started, not finished, and not the root. -/
def activePred (root : String) (tr : List Event) (id : String) : Bool :=
  decide (id ∉ finishesOf tr) && decide (id ≠ root)

/-- The transaction state right after construction plus
`initSpanRecorder`: empty activity record, heartbeat armed, recorder
attached and holding the root span. -/
def initState (rootId : String) (idleTimeout : ℚ) (maxlen : ℕ) (rootStart : ℚ) : TxState :=
  { rootId := rootId
    idleTimeout := idleTimeout
    activities := []
    prevHeartbeat := none
    heartbeatCounter := 0
    heartbeatTimer := some 5000
    idleTimers := []
    spanRecorder := some { maxlen := maxlen, spans := [{ spanId := rootId, startTimestamp := rootStart }] }
    finishCallbackSet := false
    callbackRuns := 0
    status := none
    tags := []
    endTimestamp := none }

/-! Concrete states used to evaluate the claims on explicit inputs. -/

/-- A freshly initialised transaction with a registered pre-finish
callback. -/
def c1s : TxState :=
  { initState "r" 500 10 0 with finishCallbackSet := true }

/-- A transaction two unchanged beats in, about to take its third. -/
def c2s : TxState :=
  { initState "r" 500 10 0 with
      heartbeatCounter := 2, prevHeartbeat := some "a", activities := ["a"] }

/-- The recorder held by `c2s`. -/
def c2rec : SpanRecorder :=
  { maxlen := 10, spans := [{ spanId := "r", startTimestamp := 0 }] }

/-- A recorder holding the root and one still-open child span. -/
def c3rec : SpanRecorder :=
  { maxlen := 10
    spans := [{ spanId := "r", startTimestamp := 0 }, { spanId := "c", startTimestamp := 1 }] }

/-- A transaction with one activity in flight and recorder `c3rec`. -/
def c3s : TxState :=
  { initState "r" 500 10 0 with activities := ["a"], spanRecorder := some c3rec }

/-- A fresh transaction used for the timer-interleaving scenario. -/
def c4s0 : TxState := initState "r" 500 10 0

/-- Start child a, finish it (scheduling the delayed finalize with
captured end 2 + 500/1000 = 5/2), then start child b at 2.1. -/
def c4s3 : TxState :=
  runEvents c4s0 [Event.start "a" 1, Event.fin "a" 2, Event.start "b" (21/10)]

/-- The recorder held by `c4s3`. -/
def c4rec : SpanRecorder :=
  { maxlen := 10
    spans := [{ spanId := "r", startTimestamp := 0 },
              { spanId := "a", startTimestamp := 1, endTimestamp := some 2 },
              { spanId := "b", startTimestamp := 21/10 }] }

/-- Initial state for the activity-invariant scenario. -/
def c5s0 : TxState := initState "r" 500 10 0

/-- Two child starts and one finish. -/
def c5tr : List Event := [Event.start "a" 1, Event.start "b" 2, Event.fin "a" 3]

/-- A recorder snapshot at finalize time: the root, a child that is
still open but started exactly at the finalize timestamp, and a child
that is still open and started before it. -/
def c6spans : List Span :=
  [{ spanId := "r", startTimestamp := 0 },
   { spanId := "c", startTimestamp := 5 },
   { spanId := "d", startTimestamp := 1 }]

/-- A fresh transaction whose activity record is empty. -/
def c7s : TxState := initState "r" 500 10 0

/-- A transaction with one activity in flight. -/
def c7w : TxState := { initState "r" 500 10 0 with activities := ["a"] }

/-- A transaction with no span recorder attached. -/
def c8s : TxState := { initState "r" 500 10 0 with spanRecorder := none }

/-- Previous tick saw the single activity "ab"; this tick sees the two
activities "a" and "b" — a different set with the same signature. -/
def c10s : TxState :=
  { initState "r" 500 10 0 with
      activities := ["a", "b"], prevHeartbeat := some "ab", heartbeatCounter := 1 }

/-! Helper lemmas shared by several claims. -/

/-- `_popActivity` never touches the span recorder. -/
lemma popActivity_spanRecorder (now : ℚ) (id : String) (s : TxState) :
    (popActivity now id s).spanRecorder = s.spanRecorder := by
  simp only [popActivity]
  split_ifs <;> rfl

/-- `_popActivity` never touches the root identifier. -/
lemma popActivity_rootId (now : ℚ) (id : String) (s : TxState) :
    (popActivity now id s).rootId = s.rootId := by
  simp only [popActivity]
  split_ifs <;> rfl

/-- The activity record after `_popActivity`: the key is deleted when
present; the possible timer scheduling leaves it untouched. -/
lemma popActivity_activities (now : ℚ) (id : String) (s : TxState) :
    (popActivity now id s).activities =
      if id ∈ s.activities then s.activities.filter (fun x => decide (x ≠ id))
      else s.activities := by
  simp only [popActivity]
  split_ifs <;> rfl

/-- With a recorder attached, finalizing leaves the recorder holding
exactly the pruned sequence. -/
lemma spansOf_finishIdle (now e : ℚ) (s : TxState) (rec : SpanRecorder)
    (hrec : s.spanRecorder = some rec) :
    spansOf (finishIdleTransaction now e s) = filterSpans s.rootId e rec.spans := by
  simp only [finishIdleTransaction, txFinish, spansOf, hrec]
  split_ifs <;> rfl

/-- The pruning filter keeps the root span whenever it was present. -/
lemma root_mem_filterSpans (rootId : String) (T : ℚ) (spans : List Span)
    (h : rootId ∈ spans.map Span.spanId) :
    rootId ∈ (filterSpans rootId T spans).map Span.spanId := by
  obtain ⟨sp, hsp, hid⟩ := List.mem_map.1 h
  refine List.mem_map.2 ⟨sp, ?_, hid⟩
  refine List.mem_filterMap.2 ⟨sp, hsp, ?_⟩
  simp [filterSpans, hid]

/-- The pruning filter closes every open span that started before the
finalize timestamp at that timestamp with status Cancelled. -/
lemma open_span_cancelled_mem_filterSpans (rootId : String) (T : ℚ) (spans : List Span)
    (sp : Span) (hsp : sp ∈ spans) (hne : sp.spanId ≠ rootId)
    (hopen : sp.endTimestamp = none) (hlt : sp.startTimestamp < T) :
    { sp with endTimestamp := some T, status := some SpanStatus.Cancelled } ∈
      filterSpans rootId T spans := by
  refine List.mem_filterMap.2 ⟨sp, hsp, ?_⟩
  simp [filterSpans, hne, hopen, hlt]

/-- Every non-root span kept by the pruning filter started strictly
before the finalize timestamp. -/
lemma filterSpans_start_lt (rootId : String) (T : ℚ) (spans : List Span)
    (q : Span) (hq : q ∈ filterSpans rootId T spans) :
    q.spanId = rootId ∨ q.startTimestamp < T := by
  obtain ⟨a, _, hfa⟩ := List.mem_filterMap.1 hq
  by_cases hid : a.spanId = rootId
  · simp [filterSpans, hid] at hfa
    subst hfa
    exact Or.inl hid
  · by_cases he : a.endTimestamp = none
    · simp [filterSpans, hid, he] at hfa
      obtain ⟨hlt, hq'⟩ := hfa
      subst hq'
      exact Or.inr hlt
    · simp [filterSpans, hid, he] at hfa
      obtain ⟨hlt, hq'⟩ := hfa
      subst hq'
      exact Or.inr hlt

/-- Field-level description of a successful finalize: with a recorder
attached and the transaction not yet finished, finalize sets the end
timestamp to the current wall time (the underlying finish path is called
with no argument), prunes the recorder at the finalize timestamp, and
leaves the remaining fields alone. -/
lemma finishIdle_fields (now e : ℚ) (s : TxState) (rec : SpanRecorder)
    (hrec : s.spanRecorder = some rec) (hfin : s.endTimestamp = none) :
    (finishIdleTransaction now e s).endTimestamp = some now ∧
    (finishIdleTransaction now e s).status = s.status ∧
    (finishIdleTransaction now e s).tags = s.tags ∧
    (finishIdleTransaction now e s).heartbeatCounter = s.heartbeatCounter ∧
    (finishIdleTransaction now e s).prevHeartbeat = s.prevHeartbeat ∧
    (finishIdleTransaction now e s).activities = s.activities ∧
    (finishIdleTransaction now e s).spanRecorder =
      some { rec with spans := filterSpans s.rootId e rec.spans } := by
  by_cases hcb : s.finishCallbackSet <;>
    simp [finishIdleTransaction, hrec, txFinish, hcb, hfin]

/-- The timer list after a pop that leaves the activity record empty:
the delayed finalize with the captured end timestamp is appended. -/
lemma popActivity_idleTimers_of_empty (now : ℚ) (id : String) (s : TxState)
    (h : (popActivity now id s).activities = []) :
    (popActivity now id s).idleTimers =
      s.idleTimers ++ [(s.idleTimeout, now + s.idleTimeout / 1000)] := by
  simp only [popActivity] at h ⊢
  by_cases hmem : id ∈ s.activities
  · rw [if_pos hmem] at h ⊢
    split at h
    next h2 => rw [if_pos h2]
    next h2 => exact absurd (by rw [h]; rfl) h2
  · rw [if_neg hmem] at h ⊢
    split at h
    next h2 => rw [if_pos h2]
    next h2 => exact absurd (by rw [h]; rfl) h2

/-- Looking up a tag right after setting it yields the set value. -/
lemma tagOf_setTag (k v : String) (t : List (String × String)) :
    tagOf k (setTag k v t) = some v := by
  simp [tagOf, setTag, List.find?]

/-! Claim theorems. -/

/-- C1: evaluation of the finalize path at the failing input.  After the
transaction has finished (its end timestamp is set, here to 10), a later
invocation of `_finishIdleTransaction` is not a no-op: the pre-finish
callback runs a second time (`callbackRuns` reaches 2), because the only
guard in the finalize path is the presence of the recorder, never the
Finished state.  Only the underlying finish path (guarded) leaves the
end timestamp at 10. -/
theorem finalize_after_finished_reruns_callback :
    (finishIdleTransaction 10 10 c1s).callbackRuns = 1 ∧
    (finishIdleTransaction 10 10 c1s).endTimestamp = some 10 ∧
    (finishIdleTransaction 20 20 (finishIdleTransaction 10 10 c1s)).callbackRuns = 2 ∧
    (finishIdleTransaction 20 20 (finishIdleTransaction 10 10 c1s)).endTimestamp = some 10 := by
  decide

/-- C6 counterexample: the span "c" is still open at finalize time, yet
with finalize timestamp 5 it is absent from the pruned sequence (its
start timestamp equals the finalize timestamp), contradicting the
claim's assertion that every span still open at finalize is present with
end timestamp T and status Cancelled. -/
theorem finalize_prune_cex :
    ({ spanId := "c", startTimestamp := 5 } : Span) ∈ c6spans ∧
    ({ spanId := "c", startTimestamp := 5 } : Span).endTimestamp = none ∧
    (filterSpans "r" 5 c6spans).map Span.spanId = ["r", "d"] := by
  decide

/-- C6 amended: after finalize with timestamp T the pruned sequence
contains the root whenever it was present; every other span that was
still open and started before T is present closed at T with status
Cancelled; and every kept non-root span started before T, so every
non-root span starting at or after T is absent — including still-open
ones. -/
theorem finalize_prune_spec (rootId : String) (T : ℚ) (spans : List Span)
    (hroot : rootId ∈ spans.map Span.spanId) :
    rootId ∈ (filterSpans rootId T spans).map Span.spanId ∧
    (∀ sp ∈ spans, sp.spanId ≠ rootId → sp.endTimestamp = none → sp.startTimestamp < T →
      { sp with endTimestamp := some T, status := some SpanStatus.Cancelled } ∈
        filterSpans rootId T spans) ∧
    (∀ q ∈ filterSpans rootId T spans, q.spanId = rootId ∨ q.startTimestamp < T) := by
  refine ⟨root_mem_filterSpans rootId T spans hroot, ?_, ?_⟩
  · intro sp hsp hne hopen hlt
    exact open_span_cancelled_mem_filterSpans rootId T spans sp hsp hne hopen hlt
  · intro q hq
    exact filterSpans_start_lt rootId T spans q hq

/-- C6 witness: at the concrete recorder snapshot `c6spans` with
finalize timestamp 5, the root is kept and the open early span "d" is
kept closed at 5 with status Cancelled. -/
theorem finalize_prune_spec_witness :
    "r" ∈ (filterSpans "r" 5 c6spans).map Span.spanId ∧
    ({ spanId := "d", startTimestamp := 1, endTimestamp := some 5,
       status := some SpanStatus.Cancelled } : Span) ∈ filterSpans "r" 5 c6spans := by
  have h := finalize_prune_spec "r" 5 c6spans (by decide)
  exact ⟨h.1, h.2.1 { spanId := "d", startTimestamp := 1 } (by decide) (by decide) (by decide) (by decide)⟩

/-- C7 counterexample: popping the unknown identifier "x" while the
activity record is empty is not free of finalize effects — it schedules
a fresh delayed finalize (idleTimeout 500 ms, captured end
7 + 500/1000 = 15/2). -/
theorem popActivity_unknown_cex :
    "x" ∉ c7s.activities ∧
    c7s.idleTimers = [] ∧
    (popActivity 7 "x" c7s).idleTimers = [(500, 15/2)] := by
  refine ⟨by decide, by decide, ?_⟩
  simp [popActivity, c7s, initState]
  norm_num

/-- C7 amended: popping an identifier that is not in the activity set
never raises and leaves the set unchanged; when the set is nonempty the
whole state is unchanged, but when the set is (already) empty a delayed
finalize is still scheduled. -/
theorem popActivity_unknown_spec (s : TxState) (id : String) (now : ℚ)
    (h : id ∉ s.activities) :
    (popActivity now id s).activities = s.activities ∧
    (s.activities ≠ [] → popActivity now id s = s) ∧
    (s.activities = [] →
      popActivity now id s =
        { s with idleTimers := s.idleTimers ++ [(s.idleTimeout, now + s.idleTimeout / 1000)] }) := by
  refine ⟨?_, ?_, ?_⟩
  · rw [popActivity_activities]
    simp [h]
  · intro hne
    simp only [popActivity, if_neg h]
    rw [if_neg (by simpa [List.length_eq_zero] using hne)]
  · intro he
    simp only [popActivity, if_neg h]
    rw [if_pos (by simp [he])]

/-- C7 witness: popping the unknown identifier "x" while "a" is in
flight leaves the state untouched. -/
theorem popActivity_unknown_spec_witness :
    "x" ∉ c7w.activities ∧ popActivity 7 "x" c7w = c7w := by
  refine ⟨by decide, ?_⟩
  exact (popActivity_unknown_spec c7w "x" 7 (by decide)).2.1 (by decide)

/-- C8: with no span recorder attached, the finalize path is a pure
no-op: the state is returned unchanged, so no callback runs, the
recorder is not pruned and the underlying finish path is not reached. -/
theorem finishIdle_without_recorder (s : TxState) (now e : ℚ)
    (h : s.spanRecorder = none) :
    finishIdleTransaction now e s = s := by
  simp [finishIdleTransaction, h]

/-- C8 witness: the no-recorder no-op at a concrete state. -/
theorem finishIdle_without_recorder_witness :
    c8s.spanRecorder = none ∧ finishIdleTransaction 1 2 c8s = c8s := by
  exact ⟨rfl, finishIdle_without_recorder c8s 1 2 rfl⟩

/-- C9: `_pushActivity` is idempotent — pushing the same identifier
twice yields exactly the state of pushing it once (the activity record
is a key set, not a counter) — and a single subsequent pop removes the
identifier entirely. -/
theorem pushActivity_idempotent (s : TxState) (id : String) (now : ℚ) :
    pushActivity id (pushActivity id s) = pushActivity id s ∧
    id ∉ (popActivity now id (pushActivity id s)).activities := by
  constructor
  · by_cases hm : id ∈ s.activities
    · simp [pushActivity, hm]
    · simp [pushActivity, hm]
  · rw [popActivity_activities]
    by_cases hm : id ∈ s.activities
    · simp [pushActivity, hm]
    · simp [pushActivity, hm, List.mem_filter]

/-- C10: the heartbeat signature (separator-free concatenation of the
activity identifiers) is not injective: the distinct activity sets
{"ab"} and {"a","b"} share the signature "ab", so a tick at `c10s`
(whose stored previous signature came from {"ab"} while the current set
is {"a","b"}) counts as an unchanged beat and increments the miss
counter. -/
theorem heartbeatString_collision :
    heartbeatString ["ab"] = heartbeatString ["a", "b"] ∧
    (["ab"] : List String) ≠ ["a", "b"] ∧
    c10s.activities = ["a", "b"] ∧
    c10s.prevHeartbeat = some (heartbeatString ["ab"]) ∧
    (beat 0 c10s).heartbeatCounter = c10s.heartbeatCounter + 1 := by
  decide

/-- C2: one heartbeat tick.  The signature is the concatenation of the
activity identifiers; when it equals the previous tick's signature the
miss counter is incremented, otherwise it is reset to 1, and the
signature is stored.  When the counter reaches 3 the status becomes
DeadlineExceeded, the transaction is tagged heartbeat=failed, and
finalize runs with the current time (the recorder is pruned at `now` and
the transaction's end timestamp becomes `now`); otherwise the heartbeat
is re-armed for another 5000 ms tick and nothing is finalized. -/
theorem beat_spec (s : TxState) (now : ℚ) (rec : SpanRecorder) (c : ℕ)
    (hc2 : s.heartbeatCounter ≤ 2)
    (hrec : s.spanRecorder = some rec)
    (hfin : s.endTimestamp = none)
    (hc : c = if some (heartbeatString s.activities) = s.prevHeartbeat then
                s.heartbeatCounter + 1 else 1) :
    (beat now s).heartbeatCounter = c ∧
    (beat now s).prevHeartbeat = some (heartbeatString s.activities) ∧
    (c = 3 →
      (beat now s).status = some SpanStatus.DeadlineExceeded ∧
      tagOf "heartbeat" (beat now s).tags = some "failed" ∧
      (beat now s).spanRecorder =
        some { rec with spans := filterSpans s.rootId now rec.spans } ∧
      (beat now s).endTimestamp = some now) ∧
    (c < 3 →
      (beat now s).heartbeatTimer = some 5000 ∧
      (beat now s).status = s.status ∧
      (beat now s).endTimestamp = none) := by
  by_cases hb : some (heartbeatString s.activities) = s.prevHeartbeat
  · have hcval : c = s.heartbeatCounter + 1 := by rw [hc, if_pos hb]
    by_cases h3 : 3 ≤ s.heartbeatCounter + 1
    · have hbeat : beat now s =
          finishIdleTransaction now now
            { s with heartbeatTimer := none,
                     prevHeartbeat := some (heartbeatString s.activities),
                     heartbeatCounter := s.heartbeatCounter + 1,
                     status := some SpanStatus.DeadlineExceeded,
                     tags := setTag "heartbeat" "failed" s.tags } := by
        simp [beat, hb, h3]
      have hf := finishIdle_fields now now
          { s with heartbeatTimer := none,
                   prevHeartbeat := some (heartbeatString s.activities),
                   heartbeatCounter := s.heartbeatCounter + 1,
                   status := some SpanStatus.DeadlineExceeded,
                   tags := setTag "heartbeat" "failed" s.tags } rec (by simp [hrec]) (by simp [hfin])
      rw [hbeat]
      refine ⟨?_, ?_, fun _ => ⟨?_, ?_, ?_, ?_⟩, ?_⟩
      · simp [hf.2.2.2.1, hcval]
      · simp [hf.2.2.2.2.1]
      · simp [hf.2.1]
      · simp [hf.2.2.1, tagOf_setTag]
      · simp [hf.2.2.2.2.2.2]
      · simp [hf.1]
      · intro hlt
        rw [hcval] at hlt
        exfalso
        omega
    · have hbeat : beat now s = pingHeartbeat
          { s with heartbeatTimer := none,
                   prevHeartbeat := some (heartbeatString s.activities),
                   heartbeatCounter := s.heartbeatCounter + 1 } := by
        simp [beat, hb, h3]
      rw [hbeat]
      refine ⟨by simp [pingHeartbeat, hcval], by simp [pingHeartbeat], ?_,
        fun _ => ⟨by simp [pingHeartbeat], by simp [pingHeartbeat], by simp [pingHeartbeat, hfin]⟩⟩
      intro h3'
      rw [hcval] at h3'
      exfalso
      omega
  · have hcval : c = 1 := by rw [hc, if_neg hb]
    have h3 : ¬ (3 : ℕ) ≤ 1 := by omega
    have hbeat : beat now s = pingHeartbeat
        { s with heartbeatTimer := none,
                 prevHeartbeat := some (heartbeatString s.activities),
                 heartbeatCounter := 1 } := by
      simp [beat, hb, h3]
    rw [hbeat]
    refine ⟨by simp [pingHeartbeat, hcval], by simp [pingHeartbeat], ?_,
      fun _ => ⟨by simp [pingHeartbeat], by simp [pingHeartbeat], by simp [pingHeartbeat, hfin]⟩⟩
    intro h3'
    rw [hcval] at h3'
    exfalso
    omega

/-- C2 witness: at `c2s` (two unchanged beats already, signature "a"
unchanged) the third beat marks DeadlineExceeded, tags
heartbeat=failed, and finishes at the current time 100. -/
theorem beat_spec_witness :
    c2s.heartbeatCounter ≤ 2 ∧
    (beat 100 c2s).status = some SpanStatus.DeadlineExceeded ∧
    tagOf "heartbeat" (beat 100 c2s).tags = some "failed" ∧
    (beat 100 c2s).endTimestamp = some 100 := by
  have h := beat_spec c2s 100 c2rec 3 (by decide) rfl rfl (by decide)
  have h3 := h.2.2.1 rfl
  exact ⟨by decide, h3.1, h3.2.1, h3.2.2.2⟩

/-- C3: when a pop empties the activity set, a delayed finalize is
scheduled with delay `idleTimeout` carrying the captured end timestamp
`now + idleTimeout / 1000`; and when that timer later fires — at any
wall-clock time `tFire` whatsoever — finalize runs with the captured
timestamp: every open non-root span that started before it is closed at
exactly the captured timestamp (with status Cancelled), independent of
`tFire`. -/
theorem pop_to_empty_schedules_captured_end (s : TxState) (rec : SpanRecorder)
    (id : String) (now : ℚ)
    (hrec : s.spanRecorder = some rec)
    (h : (popActivity now id s).activities = []) :
    (popActivity now id s).idleTimers =
      s.idleTimers ++ [(s.idleTimeout, now + s.idleTimeout / 1000)] ∧
    (∀ tFire : ℚ, ∀ sp ∈ rec.spans, sp.spanId ≠ s.rootId → sp.endTimestamp = none →
      sp.startTimestamp < now + s.idleTimeout / 1000 →
      { sp with endTimestamp := some (now + s.idleTimeout / 1000),
                status := some SpanStatus.Cancelled } ∈
        spansOf (fireIdleTimer tFire (s.idleTimeout, now + s.idleTimeout / 1000)
                  (popActivity now id s))) := by
  constructor
  · exact popActivity_idleTimers_of_empty now id s h
  · intro tFire sp hsp hne hopen hlt
    have hrec' : (popActivity now id s).spanRecorder = some rec := by
      rw [popActivity_spanRecorder, hrec]
    have hroot : (popActivity now id s).rootId = s.rootId := popActivity_rootId now id s
    rw [fireIdleTimer, spansOf_finishIdle _ _ _ rec hrec', hroot]
    exact open_span_cancelled_mem_filterSpans _ _ _ sp hsp hne hopen hlt

/-- C3 witness: at `c3s`, popping the last activity "a" at time 2
schedules the delayed finalize (500 ms, captured end 5/2) and firing it
at the unrelated wall time 99 still closes the open child "c" at 5/2. -/
theorem pop_to_empty_schedules_captured_end_witness :
    (popActivity 2 "a" c3s).idleTimers =
      c3s.idleTimers ++ [(c3s.idleTimeout, 2 + c3s.idleTimeout / 1000)] ∧
    ({ spanId := "c", startTimestamp := 1,
       endTimestamp := some (2 + c3s.idleTimeout / 1000),
       status := some SpanStatus.Cancelled } : Span) ∈
      spansOf (fireIdleTimer 99 (c3s.idleTimeout, 2 + c3s.idleTimeout / 1000)
                (popActivity 2 "a" c3s)) := by
  have h := pop_to_empty_schedules_captured_end c3s c3rec "a" 2 rfl (by decide)
  refine ⟨h.1, ?_⟩
  refine h.2 99 { spanId := "c", startTimestamp := 1 } (by decide) (by decide) (by decide) ?_
  show (1 : ℚ) < 2 + c3s.idleTimeout / 1000
  norm_num [c3s, initState]

/-- C4 counterexample: after child "a" is popped at time 2 a delayed
finalize is scheduled with captured end 5/2; child "b" is then pushed at
time 2.1, before the timer fires; yet firing the timer finalizes the
transaction anyway — its end timestamp becomes set and the still-open
activity "b" is closed as Cancelled — so the transaction does finalize
at the originally scheduled time while an activity is open. -/
theorem pending_idle_timer_not_cancelled_cex :
    "b" ∈ c4s3.activities ∧
    ({ spanId := "b", startTimestamp := 21/10 } : Span) ∈ spansOf c4s3 ∧
    c4s3.idleTimers = [(500, 5/2)] ∧
    (fireIdleTimer (5/2) (500, 5/2) c4s3).endTimestamp = some (5/2) ∧
    ({ spanId := "b", startTimestamp := 21/10, endTimestamp := some (5/2),
       status := some SpanStatus.Cancelled } : Span) ∈
      spansOf (fireIdleTimer (5/2) (500, 5/2) c4s3) := by
  have hrec : c4s3.spanRecorder = some c4rec := by
    simp [c4s3, c4s0, runEvents, applyEvent, recorderAdd, finishSpan, popActivity,
      pushActivity, initState, SpanRecorder.baseAdd, c4rec]
  have hfin : c4s3.endTimestamp = none := by decide
  refine ⟨by decide, ?_, ?_, ?_, ?_⟩
  · rw [spansOf, hrec]
    simp [c4rec]
  · simp [c4s3, c4s0, runEvents, applyEvent, recorderAdd, finishSpan, popActivity,
      pushActivity, initState, SpanRecorder.baseAdd]
    norm_num
  · exact (finishIdle_fields (5/2) (5/2) c4s3 c4rec hrec hfin).1
  · rw [fireIdleTimer, spansOf_finishIdle _ _ _ c4rec hrec]
    have hroot : c4s3.rootId = "r" := by decide
    rw [hroot]
    refine open_span_cancelled_mem_filterSpans "r" ((500, (5 : ℚ)/2) : ℚ × ℚ).2 c4rec.spans
      { spanId := "b", startTimestamp := 21/10 } (by simp [c4rec]) (by decide) (by decide) ?_
    show (21/10 : ℚ) < 5/2
    norm_num

/-- C4 amended: a push after a delayed finalize is scheduled does not
cancel the timer; when the timer fires (with a recorder attached and the
transaction not yet finished), the transaction finalizes regardless of
the activity set being nonempty: its end timestamp becomes set, the
activity set is not consulted or cleared, and every open non-root span
that started before the captured timestamp is closed at the captured
timestamp with status Cancelled. -/
theorem pending_idle_timer_not_cancelled (s : TxState) (rec : SpanRecorder)
    (t d e : ℚ)
    (hrec : s.spanRecorder = some rec)
    (hfin : s.endTimestamp = none)
    (_hact : s.activities ≠ []) :
    (fireIdleTimer t (d, e) s).endTimestamp = some t ∧
    (fireIdleTimer t (d, e) s).activities = s.activities ∧
    (∀ sp ∈ rec.spans, sp.spanId ≠ s.rootId → sp.endTimestamp = none →
      sp.startTimestamp < e →
      { sp with endTimestamp := some e, status := some SpanStatus.Cancelled } ∈
        spansOf (fireIdleTimer t (d, e) s)) := by
  refine ⟨?_, ?_, ?_⟩
  · exact (finishIdle_fields t e s rec hrec hfin).1
  · exact (finishIdle_fields t e s rec hrec hfin).2.2.2.2.2.1
  · intro sp hsp hne hopen hlt
    rw [fireIdleTimer, spansOf_finishIdle _ _ _ rec hrec]
    exact open_span_cancelled_mem_filterSpans _ _ _ sp hsp hne hopen hlt

/-- C4 witness: firing the pending timer at `c4s3` — where activity "b"
is open — finalizes and cancels "b" at the captured end 5/2. -/
theorem pending_idle_timer_not_cancelled_witness :
    c4s3.activities ≠ [] ∧
    (fireIdleTimer (5/2) (500, 5/2) c4s3).activities = c4s3.activities ∧
    (fireIdleTimer (5/2) (500, 5/2) c4s3).endTimestamp = some (5/2) := by
  have hrec : c4s3.spanRecorder = some c4rec := by
    simp [c4s3, c4s0, runEvents, applyEvent, recorderAdd, finishSpan, popActivity,
      pushActivity, initState, SpanRecorder.baseAdd, c4rec]
  have h := pending_idle_timer_not_cancelled c4s3 c4rec (5/2) 500 (5/2) hrec (by decide) (by decide)
  exact ⟨by decide, h.2.1, h.1⟩

/-! Trace lemmas for the activity-set invariant. -/

lemma startsOf_append (l l' : List Event) :
    startsOf (l ++ l') = startsOf l ++ startsOf l' := by
  induction l with
  | nil => rfl
  | cons e tl ih => cases e <;> simp [startsOf, ih]

lemma finishesOf_append (l l' : List Event) :
    finishesOf (l ++ l') = finishesOf l ++ finishesOf l' := by
  induction l with
  | nil => rfl
  | cons e tl ih => cases e <;> simp [finishesOf, ih]

/-- In a well-formed trace every finished span was started. -/
lemma WF_finishes_subset {tr : List Event} (h : WF tr) :
    ∀ {id : String}, id ∈ finishesOf tr → id ∈ startsOf tr := by
  induction h with
  | nil => intro id hm; simp [finishesOf] at hm
  | start htr hnotin ih =>
    intro id hm
    rw [finishesOf_append] at hm
    rw [startsOf_append]
    simp only [finishesOf, List.append_nil] at hm
    exact List.mem_append_left _ (ih hm)
  | fin htr hst hnfin ih =>
    intro id hm
    rw [finishesOf_append] at hm
    rw [startsOf_append]
    simp only [finishesOf] at hm
    rcases List.mem_append.1 hm with hm | hm
    · exact List.mem_append_left _ (ih hm)
    · simp only [List.mem_singleton] at hm
      subst hm
      exact List.mem_append_left _ hst

/-- In a well-formed trace no span starts twice. -/
lemma WF_starts_nodup {tr : List Event} (h : WF tr) : (startsOf tr).Nodup := by
  induction h with
  | nil => simp [startsOf]
  | start htr hnotin ih =>
    rw [startsOf_append]
    simp [startsOf, List.nodup_append, ih, hnotin]
  | fin htr hst hnfin ih =>
    rw [startsOf_append]
    simpa [startsOf] using ih

lemma applyEvent_spanRecorder_isSome (s : TxState) (e : Event) :
    (applyEvent s e).spanRecorder.isSome = s.spanRecorder.isSome := by
  cases e with
  | start id ts =>
    cases hsr : s.spanRecorder with
    | none => simp [applyEvent, recorderAdd, hsr]
    | some rec =>
      simp only [applyEvent, recorderAdd, hsr]
      split_ifs with h1
      · rfl
      · simp only [pushActivity]
        split_ifs <;> rfl
  | fin id ts =>
    cases hsr : s.spanRecorder with
    | none => simp [applyEvent, finishSpan, hsr]; split_ifs <;> simp [popActivity_spanRecorder, hsr]
    | some rec => simp [applyEvent, finishSpan, hsr]; split_ifs <;> simp [popActivity_spanRecorder, hsr]

lemma applyEvent_rootId (s : TxState) (e : Event) :
    (applyEvent s e).rootId = s.rootId := by
  cases e with
  | start id ts =>
    cases hsr : s.spanRecorder with
    | none => simp [applyEvent, recorderAdd, hsr]
    | some rec =>
      simp only [applyEvent, recorderAdd, hsr]
      split_ifs with h1
      · rfl
      · simp only [pushActivity]
        split_ifs <;> rfl
  | fin id ts =>
    cases hsr : s.spanRecorder with
    | none => simp [applyEvent, finishSpan, hsr]; split_ifs <;> simp [popActivity_rootId]
    | some rec => simp [applyEvent, finishSpan, hsr]; split_ifs <;> simp [popActivity_rootId]

lemma runEvents_spanRecorder_isSome (s0 : TxState) (tr : List Event) :
    (runEvents s0 tr).spanRecorder.isSome = s0.spanRecorder.isSome := by
  induction tr generalizing s0 with
  | nil => rfl
  | cons e tl ih =>
    rw [show runEvents s0 (e :: tl) = runEvents (applyEvent s0 e) tl from rfl, ih,
      applyEvent_spanRecorder_isSome]

lemma runEvents_rootId (s0 : TxState) (tr : List Event) :
    (runEvents s0 tr).rootId = s0.rootId := by
  induction tr generalizing s0 with
  | nil => rfl
  | cons e tl ih =>
    rw [show runEvents s0 (e :: tl) = runEvents (applyEvent s0 e) tl from rfl, ih,
      applyEvent_rootId]

lemma activePred_append_start (root id : String) (ts : ℚ) (tr : List Event) :
    activePred root (tr ++ [Event.start id ts]) = activePred root tr := by
  funext x
  simp [activePred, finishesOf_append, finishesOf]

/-- Characterization of the activity record after a well-formed trace:
it is exactly the list of started, not-finished, non-root identifiers in
start order. -/
lemma runEvents_activities_eq (s0 : TxState) (tr : List Event) (h : WF tr)
    (h0 : s0.activities = []) (h1 : s0.spanRecorder.isSome = true) :
    (runEvents s0 tr).activities = (startsOf tr).filter (activePred s0.rootId tr) := by
  induction h with
  | nil => simpa [runEvents, startsOf] using h0
  | @start tr id ts htr hnotin ih =>
    have hrun : runEvents s0 (tr ++ [Event.start id ts]) =
        applyEvent (runEvents s0 tr) (Event.start id ts) := by
      simp [runEvents, List.foldl_append]
    have hsome : (runEvents s0 tr).spanRecorder.isSome = true := by
      rw [runEvents_spanRecorder_isSome, h1]
    obtain ⟨rec, hrec⟩ := Option.isSome_iff_exists.1 hsome
    have hroot : (runEvents s0 tr).rootId = s0.rootId := runEvents_rootId s0 tr
    rw [hrun, activePred_append_start, startsOf_append, List.filter_append]
    simp only [startsOf]
    by_cases hid : id = s0.rootId
    · have hval : (applyEvent (runEvents s0 tr) (Event.start id ts)).activities =
          (runEvents s0 tr).activities := by
        simp [applyEvent, recorderAdd, hrec, hroot, hid]
      rw [hval, ih]
      simp [activePred, hid]
    · have hnfin : id ∉ finishesOf tr := fun hf => hnotin (WF_finishes_subset htr hf)
      have hpid : activePred s0.rootId tr id = true := by
        simp [activePred, hnfin, hid]
      have hnotact : id ∉ (runEvents s0 tr).activities := by
        rw [ih]
        intro hmem
        exact hnotin (List.mem_of_mem_filter hmem)
      have hval : (applyEvent (runEvents s0 tr) (Event.start id ts)).activities =
          (runEvents s0 tr).activities ++ [id] := by
        simp [applyEvent, recorderAdd, hrec, hroot, hid, pushActivity, hnotact]
      rw [hval, ih]
      simp [hpid]
  | @fin tr id ts htr hst hnfin ih =>
    have hrun : runEvents s0 (tr ++ [Event.fin id ts]) =
        applyEvent (runEvents s0 tr) (Event.fin id ts) := by
      simp [runEvents, List.foldl_append]
    have hsome : (runEvents s0 tr).spanRecorder.isSome = true := by
      rw [runEvents_spanRecorder_isSome, h1]
    obtain ⟨rec, hrec⟩ := Option.isSome_iff_exists.1 hsome
    have hroot : (runEvents s0 tr).rootId = s0.rootId := runEvents_rootId s0 tr
    rw [hrun, startsOf_append]
    simp only [startsOf, List.append_nil]
    by_cases hid : id = s0.rootId
    · have hval : (applyEvent (runEvents s0 tr) (Event.fin id ts)).activities =
          (runEvents s0 tr).activities := by
        simp [applyEvent, finishSpan, hrec, hroot, hid]
      rw [hval, ih]
      apply List.filter_congr
      intro x hx
      by_cases hxr : x = s0.rootId <;>
        simp [activePred, finishesOf_append, finishesOf, hxr, hid]
    · have hpid : activePred s0.rootId tr id = true := by
        simp [activePred, hnfin, hid]
      have hmem : id ∈ (runEvents s0 tr).activities := by
        rw [ih]
        exact List.mem_filter.2 ⟨hst, hpid⟩
      have hval : (applyEvent (runEvents s0 tr) (Event.fin id ts)).activities =
          (runEvents s0 tr).activities.filter (fun x => decide (x ≠ id)) := by
        simp [applyEvent, finishSpan, hrec, hroot, hid, popActivity_activities, hmem]
      rw [hval, ih, List.filter_filter]
      apply List.filter_congr
      intro x hx
      by_cases hx1 : x ∈ finishesOf tr <;> by_cases hx2 : x = id <;>
        by_cases hx3 : x = s0.rootId <;>
          simp [activePred, finishesOf_append, finishesOf, hx1, hx2, hx3]

/-- C5: for every well-formed sequence of child-span starts and finishes
routed through the activity-tracking recorder, an identifier is in the
activity set exactly when it has been started, not yet finished, and is
not the transaction's own root identifier; consequently the set's size
equals the number of currently-unfinished non-root spans.  Since every
step of a well-formed trace is again well-formed, this holds at every
point of any such sequence. -/
theorem activity_set_invariant (s0 : TxState) (tr : List Event) (h : WF tr)
    (h0 : s0.activities = []) (h1 : s0.spanRecorder.isSome = true) :
    (∀ id, id ∈ (runEvents s0 tr).activities ↔
      (id ∈ startsOf tr ∧ id ∉ finishesOf tr ∧ id ≠ s0.rootId)) ∧
    (runEvents s0 tr).activities.length =
      ((startsOf tr).filter (activePred s0.rootId tr)).length := by
  have hchar := runEvents_activities_eq s0 tr h h0 h1
  refine ⟨?_, by rw [hchar]⟩
  intro id
  rw [hchar, List.mem_filter]
  simp [activePred]

/-- The concrete trace `c5tr` is well-formed. -/
lemma c5tr_wf : WF c5tr := by
  have h1 : WF ([] ++ [Event.start "a" 1]) := WF.start WF.nil (by decide)
  have h2 : WF (([] ++ [Event.start "a" 1]) ++ [Event.start "b" 2]) :=
    WF.start h1 (by decide)
  have h3 : WF ((([] ++ [Event.start "a" 1]) ++ [Event.start "b" 2]) ++ [Event.fin "a" 3]) :=
    WF.fin h2 (by decide) (by decide)
  simpa [c5tr] using h3

/-- C5 witness: after starting "a" and "b" and finishing "a", the
identifier "b" is in the activity set exactly as the invariant
prescribes, and the set size matches the unfinished non-root count. -/
theorem activity_set_invariant_witness :
    ("b" ∈ (runEvents c5s0 c5tr).activities ↔
      ("b" ∈ startsOf c5tr ∧ "b" ∉ finishesOf c5tr ∧ "b" ≠ c5s0.rootId)) ∧
    (runEvents c5s0 c5tr).activities.length =
      ((startsOf c5tr).filter (activePred c5s0.rootId c5tr)).length := by
  have h := activity_set_invariant c5s0 c5tr c5tr_wf rfl rfl
  exact ⟨h.1 "b", h.2⟩

end IdleTx
